import Mathlib

/-!
Shallow embedding of the exio library (src/exio.h, src/exio.c) and proofs
about its components: the diagnostic writers err/warn/info, the confirm
prompt, the secure line reader getusrln, the XDG path builder get_xdg_path,
the recursive directory creator mkpath, the file size query fsize, and the
terminal signal handler installer set_handler_term.

Byte strings are modelled as List Char; streams as explicit lists; the
environment and the possible failure of each OS call as explicit parameters.
-/

namespace Exio

/-- The NUL byte used to terminate C strings. -/
def nul : Char := Char.ofNat 0

/-- The ASCII escape byte that begins every ANSI colour sequence. -/
def escChar : Char := Char.ofNat 27

/-! ## Diagnostic writers: the MSG macro and err, warn, info -/

/-- PREF_ERROR from exio.c. -/
def PREF_ERROR : List Char := ("error: ").data

/-- PREF_WARNING from exio.c. -/
def PREF_WARNING : List Char := ("warning: ").data

/-- PREF_INFO from exio.c. -/
def PREF_INFO : List Char := ("info: ").data

/-- The C_NORMAL reset sequence of exio.h, empty when EXIO_USE_COLOUR is off.
The colour flag models that compile time switch. -/
def C_NORMAL (colour : Bool) : List Char := if colour then ("\x1b[0m").data else []

/-- The C_ERROR bold red sequence of exio.h, empty when colour is off. -/
def C_ERROR (colour : Bool) : List Char := if colour then ("\x1b[31;1m").data else []

/-- The C_WARNING bold yellow sequence of exio.h, empty when colour is off. -/
def C_WARNING (colour : Bool) : List Char := if colour then ("\x1b[33;1m").data else []

/-- The C_INFO bold blue sequence of exio.h, empty when colour is off. -/
def C_INFO (colour : Bool) : List Char := if colour then ("\x1b[34;1m").data else []

/-- The MSG macro of exio.c: fputs of the severity tag, then vfprintf of the
formatted message, then fputc of a newline, short circuited with the and
operator.  The msg argument stands for the already formatted message; the
three flags say whether each of the three underlying writes would succeed.
Returns the boolean result together with the bytes written to stderr (a
failing write is modelled as writing nothing). -/
def MSG (pref msg : List Char) (okPref okMsg okNl : Bool) : Bool × List Char :=
  if okPref then
    if okMsg then
      if okNl then (true, pref ++ msg ++ ['\n'])
      else (false, pref ++ msg)
    else (false, pref)
  else (false, [])

/-- err from exio.c: MSG with tag C_ERROR PREF_ERROR C_NORMAL. -/
def err (colour : Bool) (msg : List Char) (okPref okMsg okNl : Bool) : Bool × List Char :=
  MSG (C_ERROR colour ++ PREF_ERROR ++ C_NORMAL colour) msg okPref okMsg okNl

/-- warn from exio.c: MSG with tag C_WARNING PREF_WARNING C_NORMAL. -/
def warn (colour : Bool) (msg : List Char) (okPref okMsg okNl : Bool) : Bool × List Char :=
  MSG (C_WARNING colour ++ PREF_WARNING ++ C_NORMAL colour) msg okPref okMsg okNl

/-- info from exio.c: MSG with tag C_INFO PREF_INFO C_NORMAL. -/
def info (colour : Bool) (msg : List Char) (okPref okMsg okNl : Bool) : Bool × List Char :=
  MSG (C_INFO colour ++ PREF_INFO ++ C_NORMAL colour) msg okPref okMsg okNl

/-! ## confirm -/

/-- CHAR_YES from exio.c. -/
def CHAR_YES : Char := 'y'

/-- CHAR_NO from exio.c. -/
def CHAR_NO : Char := 'n'

/-- fgets(in, 3, stdin) of the confirm loop: reads at most two characters,
stopping after a newline; none models the NULL return at end of input.
On some, the first component is the characters placed in the buffer and the
second is the rest of the stream. -/
def fgets3 : List Char → Option (List Char × List Char)
  | [] => none
  | c :: rest =>
    if c = '\n' then some ([c], rest)
    else
      match rest with
      | [] => some ([c], [])
      | d :: rest2 => some ([c, d], rest2)

/-- The drain loop of confirm, while fgetc is neither a newline nor EOF:
drops input through the first newline (everything, if there is none). -/
def dropLine : List Char → List Char
  | [] => []
  | c :: rest => if c = '\n' then rest else dropLine rest

/-- Increment the prompt count of a confirm outcome: one more trip around
the for loop writes the prompt one more time. -/
def bump (r : Bool × List Char × Nat) : Bool × List Char × Nat :=
  (r.1, r.2.1, r.2.2 + 1)

/-- The for loop of confirm from exio.c, against an explicit stdin.
Returns (result, remaining stdin, number of times the prompt was written to
stderr).  The in buffer is three bytes initialised to NUL, so after fgets the
tested cells are the first character and, when only one character was read,
NUL.  The fuel argument only bounds the iteration count; stdin.length + 1
always suffices, because every iteration consumes at least one character. -/
def confirmFuel : Nat → List Char → Bool × List Char × Nat
  | 0, stdin => (false, stdin, 0)
  | fuel + 1, stdin =>
    match fgets3 stdin with
    | none => (false, stdin, 1)
    | some (chars, rest) =>
      if chars.getD 1 nul ≠ '\n' ∧ chars.headD nul ≠ '\n' then
        bump (confirmFuel fuel (dropLine rest))
      else if chars.headD nul = CHAR_YES then (true, rest, 1)
      else if chars.headD nul = CHAR_NO then (false, rest, 1)
      else bump (confirmFuel fuel rest)

/-- confirm from exio.c: run the loop with adequate fuel. -/
def confirm (stdin : List Char) : Bool × List Char × Nat :=
  confirmFuel (stdin.length + 1) stdin

/-! ## getusrln -/

/-- The input_mode enumeration of exio.h. -/
inductive InputMode
  | IN_HIDE
  | IN_SHOW
deriving DecidableEq

/-- Terminal attributes, restricted to what the code inspects: the ECHO bit
of c_lflag, with every other attribute bit collapsed into an opaque field. -/
structure Termios where
  echo : Bool
  rest : Nat
deriving DecidableEq

/-- The environment of one getusrln call: the terminal attributes at entry
and the success of each OS call the function can make.  getline_error forces
the getline call to report failure even on a nonempty stream. -/
structure TermEnv where
  attrs : Termios
  tcgetattr_ok : Bool
  tcsetattr_hide_ok : Bool
  tcsetattr_restore_ok : Bool
  getline_error : Bool
deriving DecidableEq

/-- getline(&buf, &buf_sz, stdin): reads one line through the first newline
inclusive (or everything before end of input when no newline follows); none
models the -1 return at end of input or on a stream error. -/
def getline (error : Bool) (stdin : List Char) : Option (List Char) :=
  if error ∨ stdin = [] then none
  else some (stdin.takeWhile (· ≠ '\n') ++ if '\n' ∈ stdin then ['\n'] else [])

/-- Everything observable about one getusrln call: the returned buffer (none
models a NULL return), the value stored through input_len, the terminal
attributes at return, whether the restoring tcsetattr(old) call was ever
made, whether the lone newline was written to stderr, and whether the stdin
end of file indicator was set. -/
structure UsrlnResult where
  ret : Option (List Char)
  lenOut : Option Nat
  attrs : Termios
  restoreAttempted : Bool
  stderrNl : Bool
  eofSet : Bool
deriving DecidableEq

/-- getusrln from exio.c.  wantLen models a non NULL input_len argument.
The translation mirrors the source path by path: the IN_HIDE prologue can
fail at tcgetattr or at the disabling tcsetattr before any echo change takes
effect; after getline the code prints a newline when hiding or on read
failure, jumps to fail when getline returned -1, then (only then) attempts
the restoring tcsetattr, and finally either stores the length or overwrites
the byte at input_sz - 1 with NUL. -/
def getusrln (env : TermEnv) (stdin : List Char) (wantLen : Bool) (mode : InputMode) :
    UsrlnResult :=
  if mode = InputMode.IN_HIDE ∧ env.tcgetattr_ok = false then
    ⟨none, none, env.attrs, false, false, false⟩
  else if mode = InputMode.IN_HIDE ∧ env.tcsetattr_hide_ok = false then
    ⟨none, none, env.attrs, false, false, false⟩
  else
    -- old holds the snapshot; cur is the attribute state after the prologue
    let old := env.attrs
    let cur := if mode = InputMode.IN_HIDE then { old with echo := false } else old
    match getline env.getline_error stdin with
    | none =>
      -- input_sz == -1: newline printed, then goto fail, skipping the restore
      ⟨none, none, cur, false, true, decide (stdin = [])⟩
    | some line =>
      let nl := decide (mode = InputMode.IN_HIDE)
      if mode = InputMode.IN_HIDE ∧ env.tcsetattr_restore_ok = false then
        ⟨none, none, cur, true, nl, false⟩
      else
        let fin := if mode = InputMode.IN_HIDE then old else cur
        let attempted := decide (mode = InputMode.IN_HIDE)
        if wantLen then
          ⟨some line, some (line.length - 1), fin, attempted, nl, false⟩
        else
          ⟨some (line.set (line.length - 1) nul), none, fin, attempted, nl, false⟩

/-! ## get_xdg_path -/

/-- The observable outcome of get_xdg_path: the return code, the string that
snprintf wrote into the output buffer (none when the buffer was never
written), and whether errno was set to ENAMETOOLONG. -/
structure XdgResult where
  ret : Int
  pathOut : Option (List Char)
  errnoNameTooLong : Bool
deriving DecidableEq

/-- get_xdg_path from exio.c.  pathMax stands for the platform constant
PATH_MAX; xdgVal and homeVal are the results of getenv(xdg_dir) and
getenv("HOME").  snprintf with size pathMax writes at most pathMax - 1
characters of the composed string, which the take mirrors. -/
def get_xdg_path (pathMax : Nat) (sub_dir : List Char) (xdgVal homeVal : Option (List Char))
    (fallback_dir : List Char) : XdgResult :=
  match xdgVal with
  | some xdg =>
    if xdg.length + sub_dir.length + 1 > pathMax then ⟨-1, none, true⟩
    else ⟨0, some ((xdg ++ '/' :: sub_dir).take (pathMax - 1)), false⟩
  | none =>
    match homeVal with
    | some home =>
      if home.length + fallback_dir.length + sub_dir.length + 2 > pathMax then ⟨-1, none, true⟩
      else ⟨0, some ((home ++ '/' :: (fallback_dir ++ '/' :: sub_dir)).take (pathMax - 1)), false⟩
    | none => ⟨-2, none, false⟩

/-! ## mkpath -/

/-- Outcome of one mkdir call. -/
inductive MkdirRes
  | ok
  | eexist
  | enoent
deriving DecidableEq

/-- Parent directory of an absolute path: everything before the last '/'. -/
def parentPath (p : List Char) : List Char :=
  (((p.reverse).dropWhile (· ≠ '/')).drop 1).reverse

/-- Whether a directory exists: the root (written as "/" or as the empty
prefix of a first level path) always exists; every other directory exists
exactly when a previous mkdir created it. -/
def dirExists (fs : List (List Char)) (p : List Char) : Bool :=
  p.isEmpty || p == ['/'] || fs.contains p

/-- mkdir(p, 0777) against an abstract filesystem, a list of the directories
that exist: EEXIST when p already exists, success (adding p) when its parent
exists, ENOENT otherwise.  Every call in the source passes mode 0777, which
needs no further modelling. -/
def mkdir (p : List Char) (fs : List (List Char)) : MkdirRes × List (List Char) :=
  if dirExists fs p then (MkdirRes.eexist, fs)
  else if dirExists fs (parentPath p) then (MkdirRes.ok, p :: fs)
  else (MkdirRes.enoent, fs)

/-- The string a C function sees when handed the buffer: the bytes before
the first NUL. -/
def cstr (buf : List Char) : List Char := buf.takeWhile (· ≠ nul)

/-- The final mkdir call of mkpath on the whole (restored) path: success
means mkdir succeeded or failed with EEXIST. -/
def mkpathFinal (buf : List Char) (fs : List (List Char)) :
    Bool × List Char × List (List Char) :=
  ((mkdir (cstr buf) fs).1 == MkdirRes.ok || (mkdir (cstr buf) fs).1 == MkdirRes.eexist,
    buf, (mkdir (cstr buf) fs).2)

/-- The for loop of mkpath from exio.c, starting at index i: while the byte
at i is nonzero, the loop body runs; a byte that is not '/' BREAKS out of
the loop (this is the source text); at a '/' the byte is overwritten with
NUL, mkdir is called on the truncated string, the '/' is put back, and on a
failure other than EEXIST the function returns false.  After the loop the
full path gets one final mkdir.  The fuel only bounds iteration;
buf.length suffices since i grows every step. -/
def mkpathAux : Nat → Nat → List Char → List (List Char) → Bool × List Char × List (List Char)
  | 0, _, buf, fs => mkpathFinal buf fs
  | fuel + 1, i, buf, fs =>
    if h : i < buf.length then
      if buf.get ⟨i, h⟩ ≠ '/' then mkpathFinal buf fs
      else
        if (mkdir (cstr (buf.set i nul)) fs).1 = MkdirRes.ok ∨
            (mkdir (cstr (buf.set i nul)) fs).1 = MkdirRes.eexist then
          mkpathAux fuel (i + 1) ((buf.set i nul).set i '/') ((mkdir (cstr (buf.set i nul)) fs).2)
        else
          (false, (buf.set i nul).set i '/', (mkdir (cstr (buf.set i nul)) fs).2)
    else mkpathFinal buf fs

/-- mkpath from exio.c: the loop starts at path + 1. -/
def mkpath (buf : List Char) (fs : List (List Char)) : Bool × List Char × List (List Char) :=
  mkpathAux buf.length 1 buf fs

/-! ## fsize -/

/-- fsize from exio.c: fstat is modelled by its outcome, some size on
success and none on failure; the function returns st.st_size on success and
-1 on failure. -/
def fsize (statResult : Option Nat) : Int :=
  match statResult with
  | some n => (n : Int)
  | none => -1

/-! ## set_handler_term -/

/-- A signal disposition handler value: SIG_DFL, SIG_IGN, or the caller
supplied function. -/
inductive HandlerKind
  | dfl
  | ign
  | usr
deriving DecidableEq

/-- One sigaction record: the handler, the blocked mask sa_mask as a list of
signal numbers, and the SA_RESTART bit of sa_flags. -/
structure Sigaction where
  handler : HandlerKind
  mask : List Nat
  restart : Bool
deriving DecidableEq

/-- Linux signal numbers for the signals exio.c names. -/
def SIGHUP : Nat := 1

def SIGINT : Nat := 2

def SIGQUIT : Nat := 3

def SIGILL : Nat := 4

def SIGABRT : Nat := 6

def SIGBUS : Nat := 7

def SIGFPE : Nat := 8

def SIGUSR1 : Nat := 10

def SIGUSR2 : Nat := 12

def SIGPIPE : Nat := 13

def SIGALRM : Nat := 14

def SIGTERM : Nat := 15

/-- SIGXCPU. -/
def SIGXCPU : Nat := 24

/-- SIGXFSZ. -/
def SIGXFSZ : Nat := 25

/-- SIGVTALRM. -/
def SIGVTALRM : Nat := 26

/-- The BSD SIGIO signal, number 29 on Linux, where it aliases SIGPOLL. -/
def SIGPOLL : Nat := 29

/-- The term_sigs array of set_handler_term, in source order, on a platform
defining all the conditional signals. -/
def term_sigs : List Nat :=
  [SIGINT, SIGTERM, SIGABRT, SIGFPE, SIGILL, SIGHUP, SIGQUIT, SIGPIPE,
   SIGUSR1, SIGUSR2, SIGALRM, SIGBUS, SIGPOLL, SIGVTALRM, SIGXCPU, SIGXFSZ]

/-- Point update of the process signal disposition table. -/
def updateSig (st : Nat → Sigaction) (s : Nat) (a : Sigaction) : Nat → Sigaction :=
  fun t => if t = s then a else st t

/-- The loop of set_handler_term: act is a single struct whose sa_mask
(the mask argument here) accumulates across iterations; for each signal
whose current handler is not SIG_IGN, the signal is added to the shared
mask with sigaddset and act (handler func, current mask, SA_RESTART) is
installed with sigaction. -/
def set_handler_term_go : List Nat → (Nat → Sigaction) → List Nat → (Nat → Sigaction)
  | [], st, _ => st
  | s :: sigs, st, mask =>
    if (st s).handler = HandlerKind.ign then
      set_handler_term_go sigs st mask
    else
      set_handler_term_go sigs (updateSig st s ⟨HandlerKind.usr, s :: mask, true⟩) (s :: mask)

/-- set_handler_term from exio.c, as a transformation of the process signal
disposition table: act starts zeroed (empty mask) with SA_RESTART set. -/
def set_handler_term (st : Nat → Sigaction) : Nat → Sigaction :=
  set_handler_term_go term_sigs st []

/-! ## Helper lemmas -/

/-- Overwriting the same position twice keeps only the second write. -/
theorem set_set_same (l : List Char) (i : Nat) (a b : Char) :
    (l.set i a).set i b = l.set i b := by
  induction l generalizing i with
  | nil => rfl
  | cons c rest ih =>
    cases i with
    | zero => rfl
    | succ j => simp only [List.set]; rw [ih]

/-- Writing back the byte already stored at a position is a no-op. -/
theorem set_self_of_get (l : List Char) (i : Nat) (h : i < l.length) :
    l.set i (l.get ⟨i, h⟩) = l := by
  induction l generalizing i with
  | nil => simp at h
  | cons c rest ih =>
    cases i with
    | zero => rfl
    | succ j =>
      simp only [List.set, List.get]
      rw [ih]

/-- The temporary NUL truncation of mkpath followed by the restoring write
puts the buffer back exactly as it was, since the overwritten byte was '/'. -/
theorem set_nul_restore (buf : List Char) (i : Nat) (h : i < buf.length)
    (hget : buf.get ⟨i, h⟩ = '/') : (buf.set i nul).set i '/' = buf := by
  rw [set_set_same, ← hget, set_self_of_get]

/-- The buffer component of the mkpath loop result is always the original
buffer: every temporary truncation is undone on every path. -/
theorem mkpathAux_buffer (fuel : Nat) :
    ∀ (i : Nat) (buf : List Char) (fs : List (List Char)),
      (mkpathAux fuel i buf fs).2.1 = buf := by
  induction fuel with
  | zero => intro i buf fs; rfl
  | succ n ih =>
    intro i buf fs
    simp only [mkpathAux]
    split
    case isTrue h =>
      split
      · rfl
      case isFalse hslash =>
        have hget : buf.get ⟨i, h⟩ = '/' := not_not.mp hslash
        split
        · rw [ih, set_nul_restore buf i h hget]
        · exact set_nul_restore buf i h hget
    case isFalse h => rfl

/-! ## Claim theorems -/

/-- C3: for every input path and filesystem state, the buffer handed back by
mkpath is bit for bit identical to its original contents, on the success
path and on every failure path alike: no temporary truncation is ever
observably left in place. -/
theorem mkpath_buffer_restored (buf : List Char) (fs : List (List Char)) :
    (mkpath buf fs).2.1 = buf :=
  mkpathAux_buffer buf.length 1 buf fs

/-- C2 evaluated at the failing input of the spec: for the path /tmp/x/y/z
with only /tmp existing, mkpath returns false and creates nothing, because
the loop body executes a break (not a continue) at the first non separator
byte, so no intermediate directory is ever created and the final mkdir of
the full path fails with ENOENT. -/
theorem mkpath_break_bug :
    (mkpath (("/tmp/x/y/z").data) [("/tmp").data]).1 = false ∧
    (mkpath (("/tmp/x/y/z").data) [("/tmp").data]).2.2 = [("/tmp").data] := by
  refine ⟨?_, ?_⟩ <;> decide

/-- C1 evaluated at the failing input: mode IN_HIDE on an echoing terminal
where tcgetattr and the disabling tcsetattr succeed, but stdin is at end of
file.  getline returns -1, the code jumps to fail before the restoring
tcsetattr, and the function returns NULL with the EOF indicator set, the
restore never attempted, and echo still disabled. -/
theorem getusrln_echo_not_restored_on_eof :
    (⟨true, 0⟩ : Termios).echo = true ∧
    (getusrln ⟨⟨true, 0⟩, true, true, true, false⟩ [] true InputMode.IN_HIDE).ret = none ∧
    (getusrln ⟨⟨true, 0⟩, true, true, true, false⟩ [] true InputMode.IN_HIDE).eofSet = true ∧
    (getusrln ⟨⟨true, 0⟩, true, true, true, false⟩ [] true
        InputMode.IN_HIDE).restoreAttempted = false ∧
    (getusrln ⟨⟨true, 0⟩, true, true, true, false⟩ [] true
        InputMode.IN_HIDE).attrs.echo = false := by
  refine ⟨rfl, ?_, ?_, ?_, ?_⟩ <;> rfl

/-- C5 evaluated at the failing input: with the XDG variable value of length
PATH_MAX - 4 (here pathMax = 8 and value /a/b) and sub_dir app, the composed
path /a/b/app has length exactly PATH_MAX, the overlong check (which only
rejects lengths strictly greater than PATH_MAX) passes, and snprintf with
size PATH_MAX silently truncates the written string to /a/b/ap while the
function still returns 0. -/
theorem get_xdg_path_truncates_at_pathmax :
    (get_xdg_path 8 (("app").data) (some (("/a/b").data)) none []).ret = 0 ∧
    (get_xdg_path 8 (("app").data) (some (("/a/b").data)) none []).pathOut =
      some (("/a/b/ap").data) ∧
    ("/a/b").data ++ '/' :: ("app").data = ("/a/b/app").data ∧
    ("/a/b/ap").data ≠ ("/a/b/app").data := by
  refine ⟨?_, ?_, ?_, ?_⟩ <;> decide

/-- C6 evaluated at the failing input: with every signal at its default
disposition, set_handler_term installs the handler for SIGINT (the first
array entry) with blocked mask containing only SIGINT itself, even though
SIGTERM is also installed: the shared act mask grows incrementally, so
earlier installed handlers do not block later installed terminal signals
(the header even promises that all possible signals are blocked).  The
SA_RESTART part of the claim does hold and is recorded here too. -/
theorem set_handler_term_mask_bug :
    ((set_handler_term (fun _ => ⟨HandlerKind.dfl, [], false⟩)) SIGINT).handler
      = HandlerKind.usr ∧
    ((set_handler_term (fun _ => ⟨HandlerKind.dfl, [], false⟩)) SIGTERM).handler
      = HandlerKind.usr ∧
    ((set_handler_term (fun _ => ⟨HandlerKind.dfl, [], false⟩)) SIGINT).restart = true ∧
    ((set_handler_term (fun _ => ⟨HandlerKind.dfl, [], false⟩)) SIGINT).mask = [SIGINT] ∧
    SIGTERM ∉ ((set_handler_term (fun _ => ⟨HandlerKind.dfl, [], false⟩)) SIGINT).mask := by
  refine ⟨?_, ?_, ?_, ?_, ?_⟩ <;> decide

/-- C9: fsize returns the size N reported by fstat exactly when the
metadata query succeeds, and the negative sentinel -1 exactly when it fails
(an invalid descriptor being one way for fstat to fail). -/
theorem fsize_spec (statResult : Option Nat) :
    (∀ n, statResult = some n → fsize statResult = (n : Int)) ∧
    (statResult = none → fsize statResult = -1) ∧
    (fsize statResult < 0 ↔ statResult = none) := by
  refine ⟨?_, ?_, ?_⟩
  · rintro n rfl; rfl
  · rintro rfl; rfl
  · cases statResult with
    | none => simp [fsize]
    | some n =>
      simp only [fsize, iff_false, reduceCtorEq]
      omega

/-- Witness for C9 at concrete inputs: a five byte file reports 5, a failed
query reports -1. -/
theorem fsize_spec_witness : fsize (some 5) = (5 : Int) ∧ fsize none = -1 :=
  ⟨(fsize_spec (some 5)).1 5 rfl, (fsize_spec none).2.1 rfl⟩

/-- C4 counterexample: with the XDG variable set to the empty string and
HOME set to /home/u, the code composes from the empty value (getenv only
tests set versus unset, never emptiness) and returns 0 with path /app,
not the home fallback /home/u/.config/app that the claim prescribes for a
set but empty variable. -/
theorem get_xdg_path_empty_var_counterexample :
    (get_xdg_path 64 (("app").data) (some []) (some (("/home/u").data))
        ((".config").data)).ret = 0 ∧
    (get_xdg_path 64 (("app").data) (some []) (some (("/home/u").data))
        ((".config").data)).pathOut = some (("/app").data) ∧
    ("/app").data ≠ ("/home/u/.config/app").data := by
  refine ⟨?_, ?_, ?_⟩ <;> decide

/-- C4 as amended: get_xdg_path composes from the environment variable named
by xdg_dir whenever getenv finds it set, including set to the empty string;
when it is unset but HOME is set it composes home, fallback and sub
directory; when neither is set it returns -2 with no error indicator.  The
composition conclusions carry the fitting hypothesis (total length below
PATH_MAX) under which the full path is written. -/
theorem get_xdg_path_selection (pathMax : Nat) (sub fallback : List Char)
    (xdgVal homeVal : Option (List Char)) :
    (∀ v, xdgVal = some v → v.length + sub.length + 1 < pathMax →
      get_xdg_path pathMax sub xdgVal homeVal fallback =
        ⟨0, some (v ++ '/' :: sub), false⟩) ∧
    (∀ h, xdgVal = none → homeVal = some h →
      h.length + fallback.length + sub.length + 2 < pathMax →
      get_xdg_path pathMax sub xdgVal homeVal fallback =
        ⟨0, some (h ++ '/' :: (fallback ++ '/' :: sub)), false⟩) ∧
    (xdgVal = none → homeVal = none →
      get_xdg_path pathMax sub xdgVal homeVal fallback = ⟨-2, none, false⟩) := by
  refine ⟨?_, ?_, ?_⟩
  · rintro v rfl hlen
    simp only [get_xdg_path]
    rw [if_neg (by omega)]
    have : (v ++ '/' :: sub).take (pathMax - 1) = v ++ '/' :: sub := by
      apply List.take_of_length_le
      simp only [List.length_append, List.length_cons]
      omega
    rw [this]
  · rintro h rfl rfl hlen
    simp only [get_xdg_path]
    rw [if_neg (by omega)]
    have : (h ++ '/' :: (fallback ++ '/' :: sub)).take (pathMax - 1) =
        h ++ '/' :: (fallback ++ '/' :: sub) := by
      apply List.take_of_length_le
      simp only [List.length_append, List.length_cons]
      omega
    rw [this]
  · rintro rfl rfl
    rfl

/-- Witness for C4 as amended, at the spec example: variable /a/b and
subdirectory app give /a/b/app and return code 0. -/
theorem get_xdg_path_selection_witness :
    get_xdg_path 64 (("app").data) (some (("/a/b").data)) none ((".config").data) =
      ⟨0, some (("/a/b/app").data), false⟩ := by
  have h := (get_xdg_path_selection 64 (("app").data) ((".config").data)
      (some (("/a/b").data)) none).1 (("/a/b").data) rfl (by decide)
  rw [h]
  decide

/-- The return value of the MSG macro is the conjunction of the three write
outcomes (short circuited, a failed write stopping the later ones). -/
theorem MSG_ret (pref msg : List Char) (o1 o2 o3 : Bool) :
    (MSG pref msg o1 o2 o3).1 = (o1 && o2 && o3) := by
  cases o1 <;> cases o2 <;> cases o3 <;> rfl

/-- On all successful writes, the MSG macro emits tag, message, newline. -/
theorem MSG_out (pref msg : List Char) :
    (MSG pref msg true true true).2 = pref ++ msg ++ ['\n'] := rfl

/-- The escape byte occurs in a successful MSG line whose tag is wrapped in
colour sequences exactly when colour is on, provided neither the plain tag
text nor the message contains it. -/
theorem escChar_mem_MSG_out (escSeq tag msg : List Char) (colour : Bool)
    (hseq : escChar ∈ escSeq) (htag : escChar ∉ tag) (hmsg : escChar ∉ msg) :
    (escChar ∈ (MSG ((if colour then escSeq else []) ++ tag ++
        (if colour then ("\x1b[0m").data else [])) msg true true true).2 ↔
      colour = true) := by
  have hnl : escChar ≠ '\n' := by decide
  have hreset : escChar ∈ ("\x1b[0m").data := by decide
  cases colour
  · simp [MSG_out, List.mem_append, htag, hmsg, hnl]
  · simp [MSG_out, List.mem_append, hseq]

/-- C8: every severity writer returns true exactly when all three underlying
writes succeed; on success the emitted line is optional colour escape,
severity tag, optional colour reset, formatted message, newline; and the
escape byte appears in the line exactly when colour support is compiled in
(for messages that do not themselves contain the escape byte). -/
theorem msg_writers_line (colour : Bool) (msg : List Char) (o1 o2 o3 : Bool)
    (hmsg : escChar ∉ msg) :
    ((err colour msg o1 o2 o3).1 = (o1 && o2 && o3) ∧
      (warn colour msg o1 o2 o3).1 = (o1 && o2 && o3) ∧
      (info colour msg o1 o2 o3).1 = (o1 && o2 && o3)) ∧
    (o1 = true → o2 = true → o3 = true →
      (err colour msg o1 o2 o3).2 =
        C_ERROR colour ++ PREF_ERROR ++ C_NORMAL colour ++ msg ++ ['\n'] ∧
      (warn colour msg o1 o2 o3).2 =
        C_WARNING colour ++ PREF_WARNING ++ C_NORMAL colour ++ msg ++ ['\n'] ∧
      (info colour msg o1 o2 o3).2 =
        C_INFO colour ++ PREF_INFO ++ C_NORMAL colour ++ msg ++ ['\n']) ∧
    ((escChar ∈ (err colour msg true true true).2 ↔ colour = true) ∧
      (escChar ∈ (warn colour msg true true true).2 ↔ colour = true) ∧
      (escChar ∈ (info colour msg true true true).2 ↔ colour = true)) := by
  refine ⟨⟨MSG_ret _ _ o1 o2 o3, MSG_ret _ _ o1 o2 o3, MSG_ret _ _ o1 o2 o3⟩, ?_, ?_, ?_, ?_⟩
  · rintro rfl rfl rfl
    refine ⟨?_, ?_, ?_⟩ <;> simp [err, warn, info, MSG_out, List.append_assoc]
  · exact escChar_mem_MSG_out (("\x1b[31;1m").data) PREF_ERROR msg colour
      (by decide) (by decide) hmsg
  · exact escChar_mem_MSG_out (("\x1b[33;1m").data) PREF_WARNING msg colour
      (by decide) (by decide) hmsg
  · exact escChar_mem_MSG_out (("\x1b[34;1m").data) PREF_INFO msg colour
      (by decide) (by decide) hmsg

/-- Witness for C8 at a concrete input: the colour err line for message x. -/
theorem msg_writers_line_witness :
    escChar ∉ ("x").data ∧
    (err true (("x").data) true true true).2 =
      C_ERROR true ++ PREF_ERROR ++ C_NORMAL true ++ ("x").data ++ ['\n'] ∧
    (err false (("x").data) true true true).1 = true := by
  refine ⟨by decide, ?_, ?_⟩
  · exact ((msg_writers_line true (("x").data) true true true (by decide)).2.1 rfl rfl rfl).1
  · exact ((msg_writers_line false (("x").data) true true true (by decide)).1.1).trans rfl

/-- C10: when the stream holds a non empty final line with no terminating
newline (end of file right after the data) and the read succeeds, getusrln
still removes one byte: the reported length is the byte count minus one
and, when input_len is NULL, the last data byte itself is overwritten with
NUL, losing the final input byte. -/
theorem getusrln_unterminated_final_line (env : TermEnv) (stdin : List Char)
    (wantLen : Bool) (mode : InputMode)
    (hne : stdin ≠ []) (hnl : '\n' ∉ stdin) (herr : env.getline_error = false)
    (hok : (getusrln env stdin wantLen mode).ret ≠ none) :
    (getusrln env stdin wantLen mode).lenOut =
      (if wantLen then some (stdin.length - 1) else none) ∧
    (getusrln env stdin wantLen mode).ret =
      some (if wantLen then stdin else stdin.set (stdin.length - 1) nul) := by
  have hgl : getline env.getline_error stdin = some stdin := by
    rw [getline, if_neg (by simp [herr, hne])]
    rw [List.takeWhile_eq_self_iff.mpr, if_neg hnl, List.append_nil]
    intro x hx
    simp only [decide_eq_true_eq]
    exact fun hEq => hnl (hEq ▸ hx)
  by_cases h1 : mode = InputMode.IN_HIDE ∧ env.tcgetattr_ok = false
  · exact absurd (by simp [getusrln, h1]) hok
  · by_cases h2 : mode = InputMode.IN_HIDE ∧ env.tcsetattr_hide_ok = false
    · exact absurd (by simp [getusrln, h1, h2]) hok
    · by_cases h3 : mode = InputMode.IN_HIDE ∧ env.tcsetattr_restore_ok = false
      · obtain ⟨hm, hr⟩ := h3
        have hg : env.tcgetattr_ok = true := by
          cases hgo : env.tcgetattr_ok
          · exact absurd ⟨hm, hgo⟩ h1
          · rfl
        have hh : env.tcsetattr_hide_ok = true := by
          cases hho : env.tcsetattr_hide_ok
          · exact absurd ⟨hm, hho⟩ h2
          · rfl
        exact absurd (by simp [getusrln, hm, hg, hh, hr, hgl]) hok
      · cases wantLen <;> refine ⟨?_, ?_⟩ <;> simp [getusrln, h1, h2, h3, hgl]

/-- Witness for C10 at stream abc with no newline and input_len NULL: the
returned buffer is ab followed by NUL; the byte c is gone. -/
theorem getusrln_unterminated_final_line_witness :
    (getusrln ⟨⟨true, 0⟩, true, true, true, false⟩ ('a' :: 'b' :: 'c' :: []) false
        InputMode.IN_SHOW).lenOut = none ∧
    (getusrln ⟨⟨true, 0⟩, true, true, true, false⟩ ('a' :: 'b' :: 'c' :: []) false
        InputMode.IN_SHOW).ret = some ('a' :: 'b' :: nul :: []) := by
  have h := getusrln_unterminated_final_line ⟨⟨true, 0⟩, true, true, true, false⟩
      ('a' :: 'b' :: 'c' :: []) false InputMode.IN_SHOW (by decide) (by decide) rfl
      (by decide)
  exact ⟨h.1.trans (by decide), h.2.trans (by decide)⟩

/-- Draining a line never lengthens the stream. -/
theorem dropLine_length_le (l : List Char) : (dropLine l).length ≤ l.length := by
  induction l with
  | nil => exact Nat.le_refl _
  | cons c rest ih =>
    by_cases h : c = '\n'
    · simp only [dropLine, if_pos h, List.length_cons]
      exact Nat.le_succ _
    · simp only [dropLine, if_neg h, List.length_cons]
      exact Nat.le_trans ih (Nat.le_succ _)

/-- A successful fgets consumes at least one character of the stream. -/
theorem fgets3_some_rest_lt {s chars rest : List Char}
    (h : fgets3 s = some (chars, rest)) : rest.length < s.length := by
  cases s with
  | nil => exact absurd h (by simp [fgets3])
  | cons c r =>
    by_cases hc : c = '\n'
    · simp only [fgets3, if_pos hc, Option.some.injEq, Prod.mk.injEq] at h
      obtain ⟨-, rfl⟩ := h
      simp only [List.length_cons]
      omega
    · cases r with
      | nil =>
        simp only [fgets3, if_neg hc, Option.some.injEq, Prod.mk.injEq] at h
        obtain ⟨-, rfl⟩ := h
        simp only [List.length_nil, List.length_cons]
        omega
      | cons d r2 =>
        simp only [fgets3, if_neg hc, Option.some.injEq, Prod.mk.injEq] at h
        obtain ⟨-, rfl⟩ := h
        simp only [List.length_cons]
        omega

/-- The fuel argument of the confirm loop is irrelevant as soon as it
dominates the stream length, because every iteration consumes at least one
character. -/
theorem confirmFuel_congr (n : Nat) :
    ∀ (m : Nat) (s : List Char), s.length < n → s.length < m →
      confirmFuel n s = confirmFuel m s := by
  induction n with
  | zero => intro m s h _; exact absurd h (Nat.not_lt_zero _)
  | succ n ih =>
    intro m s hn hm
    obtain ⟨m', rfl⟩ : ∃ k, m = k + 1 := ⟨m - 1, by omega⟩
    cases hf : fgets3 s with
    | none => simp only [confirmFuel, hf]
    | some p =>
      obtain ⟨chars, rest⟩ := p
      have hr : rest.length < s.length := fgets3_some_rest_lt hf
      have hd : (dropLine rest).length ≤ rest.length := dropLine_length_le rest
      simp only [confirmFuel, hf]
      by_cases h1 : chars.getD 1 nul ≠ '\n' ∧ chars.headD nul ≠ '\n'
      · rw [if_pos h1, if_pos h1, ih m' (dropLine rest) (by omega) (by omega)]
      · rw [if_neg h1, if_neg h1]
        by_cases h2 : chars.headD nul = CHAR_YES
        · rw [if_pos h2, if_pos h2]
        · rw [if_neg h2, if_neg h2]
          by_cases h3 : chars.headD nul = CHAR_NO
          · rw [if_pos h3, if_pos h3]
          · rw [if_neg h3, if_neg h3, ih m' rest (by omega) (by omega)]

/-- C7: confirm writes the prompt and accepts only a line that is exactly
y (returning true) or n (returning false) followed by the newline, case
sensitive: such a stream prefix returns after a single prompt, consuming
exactly that line.  At end of input the function returns false after the
single prompt already written, without looping.  Every other stream is
rejected: the whole first line (through its newline, or to the end of input
when no newline remains) is drained, and the loop runs again on the rest,
writing the prompt once more. -/
theorem confirm_spec (stdin : List Char) :
    (stdin = [] → confirm stdin = (false, [], 1)) ∧
    (∀ rest, stdin = 'y' :: '\n' :: rest → confirm stdin = (true, rest, 1)) ∧
    (∀ rest, stdin = 'n' :: '\n' :: rest → confirm stdin = (false, rest, 1)) ∧
    (stdin ≠ [] → (∀ rest, stdin ≠ 'y' :: '\n' :: rest) →
      (∀ rest, stdin ≠ 'n' :: '\n' :: rest) →
      confirm stdin = bump (confirm (dropLine stdin))) := by
  refine ⟨?_, ?_, ?_, ?_⟩
  · rintro rfl; rfl
  · rintro rest rfl; rfl
  · rintro rest rfl; rfl
  · intro hne hny hnn
    cases stdin with
    | nil => exact absurd rfl hne
    | cons c rest =>
      by_cases hc : c = '\n'
      · subst hc; rfl
      · cases rest with
        | nil =>
          have hf : fgets3 [c] = some ([c], []) := by
            simp only [fgets3, if_neg hc]
          have hdl : dropLine [c] = [] := by
            rw [dropLine, if_neg hc]
            rfl
          have hcond : ([c].getD 1 nul ≠ '\n') ∧ ([c].headD nul ≠ '\n') := by
            refine ⟨?_, hc⟩
            intro h
            have h2 : nul = '\n' := h
            exact absurd h2 (by decide)
          show confirmFuel (1 + 1) [c] = bump (confirm (dropLine [c]))
          rw [confirmFuel, hf]
          dsimp only
          rw [if_pos hcond, hdl]
          rfl
        | cons d rest2 =>
          have hf : fgets3 (c :: d :: rest2) = some ([c, d], rest2) := by
            simp only [fgets3, if_neg hc]
          by_cases hd : d = '\n'
          · subst hd
            have hcy : ¬([c, '\n'].headD nul = CHAR_YES) :=
              fun h => hny rest2 (by rw [show c = 'y' from h])
            have hcn : ¬([c, '\n'].headD nul = CHAR_NO) :=
              fun h => hnn rest2 (by rw [show c = 'n' from h])
            have hcond : ¬(([c, '\n'].getD 1 nul ≠ '\n') ∧ ([c, '\n'].headD nul ≠ '\n')) :=
              fun h => h.1 rfl
            have hdl : dropLine (c :: '\n' :: rest2) = rest2 := by
              rw [dropLine, if_neg hc, dropLine, if_pos rfl]
            show confirmFuel (rest2.length + 1 + 1 + 1) (c :: '\n' :: rest2) =
              bump (confirm (dropLine (c :: '\n' :: rest2)))
            rw [confirmFuel, hf]
            dsimp only
            rw [if_neg hcond, if_neg hcy, if_neg hcn, hdl]
            rw [confirmFuel_congr (rest2.length + 1 + 1) (rest2.length + 1) rest2
              (by omega) (by omega)]
            rfl
          · have hcond : ([c, d].getD 1 nul ≠ '\n') ∧ ([c, d].headD nul ≠ '\n') := ⟨hd, hc⟩
            have hdl : dropLine (c :: d :: rest2) = dropLine rest2 := by
              rw [dropLine, if_neg hc, dropLine, if_neg hd]
            have hlen : (dropLine rest2).length ≤ rest2.length := dropLine_length_le rest2
            show confirmFuel (rest2.length + 1 + 1 + 1) (c :: d :: rest2) =
              bump (confirm (dropLine (c :: d :: rest2)))
            rw [confirmFuel, hf]
            dsimp only
            rw [if_pos hcond, hdl]
            rw [confirmFuel_congr (rest2.length + 1 + 1) ((dropLine rest2).length + 1)
              (dropLine rest2) (by omega) (by omega)]
            rfl

/-- Witness for C7 at concrete streams: the bare y line assents at once; a
yes line is drained and the prompt repeats on the rest of the stream. -/
theorem confirm_spec_witness :
    confirm ('y' :: '\n' :: []) = (true, [], 1) ∧
    confirm ('Y' :: '\n' :: 'n' :: '\n' :: []) =
      bump (confirm (dropLine ('Y' :: '\n' :: 'n' :: '\n' :: []))) :=
  ⟨(confirm_spec ('y' :: '\n' :: [])).2.1 [] rfl,
    (confirm_spec ('Y' :: '\n' :: 'n' :: '\n' :: [])).2.2.2 (by decide)
      (fun rest h => by simp at h) (fun rest h => by simp at h)⟩

end Exio
